import Mathlib

/-!
# Turtle: a shallow embedding of the Go interpreter in `src/main.go`

The repository is a tiny line-oriented arithmetic interpreter.  This file
embeds its core pipeline — whitespace tokenizer, recursive-descent
parser/evaluator with one-token lookahead, and a mutable variable
environment — as executable Lean definitions, and proves the behavioural
properties of the ten claims.

Modelling decisions (all noted at the relevant definition):
* Go `panic` calls become `Except Err` errors, one constructor per distinct
  panic site in the source.
* The Go `map[string]int` is an association list whose lookup returns the
  most recent binding, which is observationally the map's overwrite
  semantics.
* The mutually recursive parse functions take a fuel argument (the Go code
  has no stack guard; recursion depth mirrors parenthesis nesting).
  Exhausted fuel is a distinguished `OutOfFuel` error, never conflated with
  the program's own errors.
* Go's 64-bit `int` arithmetic wraps on overflow; every arithmetic result
  is reduced into the two's-complement range by `wrap64`.  Division uses
  `Int.tdiv`, which truncates toward zero exactly as Go's `/` does, and
  wrapping covers Go's one overflowing quotient `(-2^63) / -1 = -2^63`.
* Go's `unicode.IsLetter(rune(tokenText[0]))` reads the first *byte* of
  the word and tests the code point 0–255 it denotes; `utf8FirstByte` and
  `goIsLetterByte` model exactly that.
-/

/-- A lexical token: `Type` and `Value` fields of the Go `Token` struct.
(`typ` because `Type` is a Lean keyword.) -/
structure Token where
  typ : String
  value : String
  deriving DecidableEq, Repr

/-- The token `NextToken` manufactures once the stream is exhausted. -/
def eofToken : Token := ⟨"EOF", ""⟩

/-- The space test of `bufio.ScanWords` (`isSpace` in Go's
`bufio/scan.go`): the ASCII spaces `\t \n \v \f \r` and the blank, the
two Latin-1 oddballs U+0085 and U+00A0, and the high-valued Unicode
spaces U+1680, U+2000–U+200A, U+2028, U+2029, U+202F, U+205F, U+3000. -/
def goIsSpace (c : Char) : Bool :=
  if c.toNat ≤ 0xFF then
    c.toNat = 0x20 || c.toNat = 0x09 || c.toNat = 0x0A || c.toNat = 0x0B ||
    c.toNat = 0x0C || c.toNat = 0x0D || c.toNat = 0x85 || c.toNat = 0xA0
  else
    (0x2000 ≤ c.toNat && c.toNat ≤ 0x200A) ||
    c.toNat = 0x1680 || c.toNat = 0x2028 || c.toNat = 0x2029 ||
    c.toNat = 0x202F || c.toNat = 0x205F || c.toNat = 0x3000

/-- Word scanner: accumulate the current word (in reverse) and emit it at
each whitespace run (per `goIsSpace`) or at the end of the line.  Empty
words are never emitted. -/
def splitWordsAux : List Char → List Char → List String
  | [], acc => if acc.isEmpty then [] else [⟨acc.reverse⟩]
  | c :: cs, acc =>
    if goIsSpace c then
      if acc.isEmpty then splitWordsAux cs []
      else ⟨acc.reverse⟩ :: splitWordsAux cs []
    else splitWordsAux cs (c :: acc)

/-- `bufio.ScanWords` applied to one line: the maximal whitespace-free
words, in order (runs of spaces collapse; an empty line yields no words;
an empty word is never produced). -/
def splitWords (line : String) : List String :=
  splitWordsAux line.toList []

/-- The digits of a word as a natural number: `some` iff the word is one or
more decimal digits.  Helper for the `strconv.Atoi` model. -/
def digitsToNat (cs : List Char) : Option Nat :=
  if cs = [] then none
  else if cs.all Char.isDigit then
    some (cs.foldl (fun a c => a * 10 + (c.toNat - 48)) 0)
  else none

/-- `strconv.Atoi`: an optional sign followed by one or more decimal
digits, with the 64-bit `int` range check (out-of-range input returns an
error in Go, hence `none` here). -/
def goAtoi (s : String) : Option Int :=
  match s.toList with
  | [] => none
  | '+' :: cs => (digitsToNat cs).bind fun n =>
      if n ≤ 2 ^ 63 - 1 then some (n : Int) else none
  | '-' :: cs => (digitsToNat cs).bind fun n =>
      if n ≤ 2 ^ 63 then some (-(n : Int)) else none
  | cs => (digitsToNat cs).bind fun n =>
      if n ≤ 2 ^ 63 - 1 then some (n : Int) else none

/-- The first byte of a character's UTF-8 encoding: Go's `tokenText[0]`
indexes the byte string, so a multi-byte character contributes only its
lead byte. -/
def utf8FirstByte (c : Char) : Nat :=
  if c.toNat < 0x80 then c.toNat
  else if c.toNat < 0x800 then 0xC0 + c.toNat / 0x40
  else if c.toNat < 0x10000 then 0xE0 + c.toNat / 0x1000
  else 0xF0 + c.toNat / 0x40000

/-- `unicode.IsLetter` restricted to the code points 0–255, the only
values `rune(tokenText[0])` can denote: the ASCII letters `A`–`Z` and
`a`–`z`, plus the Latin-1 letters ª µ º À–Ö Ø–ö ø–ÿ (U+00D7 `×` and
U+00F7 `÷` excluded). -/
def goIsLetterByte (b : Nat) : Bool :=
  (0x41 ≤ b && b ≤ 0x5A) || (0x61 ≤ b && b ≤ 0x7A) ||
  b = 0xAA || b = 0xB5 || b = 0xBA ||
  (0xC0 ≤ b && b ≤ 0xD6) || (0xD8 ≤ b && b ≤ 0xF6) || (0xF8 ≤ b && b ≤ 0xFF)

/-- `getTokenType` from the source: exact operator match first, then the
`strconv.Atoi` test, then `unicode.IsLetter(rune(tokenText[0]))` — the
letter test on the word's first *byte* read as a code point — else
`UNKNOWN`.  The Go code indexes `tokenText[0]` without an emptiness
guard; the word splitter never produces an empty word, and the
unreachable `[]` arm here returns `UNKNOWN`. -/
def getTokenType (tokenText : String) : String :=
  if tokenText = "+" then "PLUS"
  else if tokenText = "-" then "MINUS"
  else if tokenText = "*" then "MULTIPLY"
  else if tokenText = "/" then "DIVIDE"
  else if tokenText = "=" then "ASSIGN"
  else if tokenText = "(" then "LPAREN"
  else if tokenText = ")" then "RPAREN"
  else if (goAtoi tokenText).isSome then "NUMBER"
  else
    match tokenText.toList with
    | c :: _ => if goIsLetterByte (utf8FirstByte c) then "IDENT" else "UNKNOWN"
    | [] => "UNKNOWN"

/-- `tokenizeLine`: classify every whitespace-delimited word of a line,
keeping the exact word as the token's text. -/
def tokenizeLine (line : String) : List Token :=
  (splitWords line).map fun w => ⟨getTokenType w, w⟩

/-- `tokenizeInput`: tokenize each physical line in order and concatenate
the results — no separator token marks a line boundary. -/
def tokenizeInput (lines : List String) : List Token :=
  lines.flatMap tokenizeLine

/-- `NextToken`: pop the front of the token list, or produce the `EOF`
token (leaving the empty list empty) once exhausted. -/
def NextToken : List Token → Token × List Token
  | [] => (eofToken, [])
  | t :: ts => (t, ts)

/-- The parser's runtime errors; one constructor per `panic` site in the
source, plus `OutOfFuel` for the fuel cutoff of this embedding. -/
inductive Err where
  | DivisionByZero
  | UndefinedVariable (name : String)
  | MalformedNumber
  | UnexpectedToken
  | ExpectedRParen
  | OutOfFuel
  deriving DecidableEq, Repr

/-- Parser state: the one-token lookahead `curToken`, the remaining token
stream, and the variable environment (Go `map[string]int`). -/
structure ParserState where
  curToken : Token
  rest : List Token
  vars : List (String × Int)
  deriving DecidableEq, Repr

/-- Environment read: the most recent binding for `name`, if any. -/
def lookupVar : List (String × Int) → String → Option Int
  | [], _ => none
  | (k, v) :: tl, name => if k = name then some v else lookupVar tl name

/-- Environment write (`p.vars[varName] = value`): unconditional
overwrite, realised by prepending, since `lookupVar` returns the most
recent binding. -/
def setVar (vars : List (String × Int)) (name : String) (v : Int) :
    List (String × Int) :=
  (name, v) :: vars

/-- `consumeToken`: advance the lookahead buffer via `NextToken`. -/
def consumeToken (s : ParserState) : ParserState :=
  let p := NextToken s.rest
  { s with curToken := p.1, rest := p.2 }

/-- `NewParser`: empty environment, then immediately pull the first token
into the lookahead buffer. -/
def NewParser (tokens : List Token) : ParserState :=
  consumeToken { curToken := ⟨"", ""⟩, rest := tokens, vars := [] }

/-- Is the lookahead one of the four binary-operator tokens (the
`parseExpression` loop condition)? -/
def isOpToken (t : Token) : Bool :=
  t.typ = "PLUS" || t.typ = "MINUS" || t.typ = "MULTIPLY" || t.typ = "DIVIDE"

/-- Reduction of an integer into the 64-bit two's-complement range
`[-2^63, 2^63)`: Go's `int` arithmetic wraps on overflow. -/
def wrap64 (n : Int) : Int :=
  (n + 9223372036854775808) % 18446744073709551616 - 9223372036854775808

/-- The operator `switch` inside `parseExpression`'s loop: fold `right`
into the accumulator `left`, wrapping as 64-bit `int` arithmetic does.
Division checks for a zero right operand and otherwise truncates toward
zero (`Int.tdiv`, matching Go `/`); per the Go spec the one overflowing
quotient `(-2^63) / -1` wraps back to `-2^63`, which `wrap64` yields.
The loop condition guarantees `operator` is one of the four cases. -/
def applyOperator (operator : String) (left right : Int) : Except Err Int :=
  if operator = "PLUS" then .ok (wrap64 (left + right))
  else if operator = "MINUS" then .ok (wrap64 (left - right))
  else if operator = "MULTIPLY" then .ok (wrap64 (left * right))
  else if right = 0 then .error .DivisionByZero
  else .ok (wrap64 (Int.tdiv left right))

mutual

/-- `parseExpression`: parse one term, then fold operators left-to-right
via `parseExprLoop`. -/
def parseExpression (fuel : Nat) (s : ParserState) :
    Except Err (Int × ParserState) :=
  match fuel with
  | 0 => .error .OutOfFuel
  | fuel + 1 =>
    match parseTerm fuel s with
    | .error e => .error e
    | .ok (left, s₁) => parseExprLoop fuel left s₁

/-- The `for` loop of `parseExpression`: while the lookahead is one of
`+ - * /`, consume the operator, parse the next term, fold it into the
accumulator, and — after folding — return immediately if the lookahead is
`RPAREN`, leaving that `RPAREN` unconsumed. -/
def parseExprLoop (fuel : Nat) (left : Int) (s : ParserState) :
    Except Err (Int × ParserState) :=
  match fuel with
  | 0 => .error .OutOfFuel
  | fuel + 1 =>
    if isOpToken s.curToken then
      let operator := s.curToken.typ
      let s₁ := consumeToken s
      match parseTerm fuel s₁ with
      | .error e => .error e
      | .ok (right, s₂) =>
        match applyOperator operator left right with
        | .error e => .error e
        | .ok newLeft =>
          if s₂.curToken.typ = "RPAREN" then .ok (newLeft, s₂)
          else parseExprLoop fuel newLeft s₂
    else .ok (left, s)

/-- `parseTerm`: a number literal, a variable reference, or a
parenthesised expression; any other lookahead is an unexpected-token
error. -/
def parseTerm (fuel : Nat) (s : ParserState) :
    Except Err (Int × ParserState) :=
  match fuel with
  | 0 => .error .OutOfFuel
  | fuel + 1 =>
    if s.curToken.typ = "NUMBER" then
      match goAtoi s.curToken.value with
      | none => .error .MalformedNumber
      | some number => .ok (number, consumeToken s)
    else if s.curToken.typ = "IDENT" then
      let varName := s.curToken.value
      let s₁ := consumeToken s
      match lookupVar s₁.vars varName with
      | none => .error (.UndefinedVariable varName)
      | some value => .ok (value, s₁)
    else if s.curToken.typ = "LPAREN" then
      let s₁ := consumeToken s
      match parseExpression fuel s₁ with
      | .error e => .error e
      | .ok (result, s₂) =>
        if s₂.curToken.typ ≠ "RPAREN" then .error .ExpectedRParen
        else .ok (result, consumeToken s₂)
    else .error .UnexpectedToken

end

/-- `evaluateExpression`: the bare-identifier statement path — a pure
environment lookup, failing with an undefined-variable error. -/
def evaluateExpression (vars : List (String × Int)) (varName : String) :
    Except Err Int :=
  match lookupVar vars varName with
  | none => .error (.UndefinedVariable varName)
  | some value => .ok value

/-- `parseStatement`: an identifier begins either an assignment
(`IDENT = expr`, which binds and prints nothing) or a bare variable
reference (printed); anything else is parsed as an expression statement
and its value printed.  The optional `Int` is the line printed, if any. -/
def parseStatement (fuel : Nat) (s : ParserState) :
    Except Err (Option Int × ParserState) :=
  match fuel with
  | 0 => .error .OutOfFuel
  | fuel + 1 =>
    if s.curToken.typ = "IDENT" then
      let varName := s.curToken.value
      let s₁ := consumeToken s
      if s₁.curToken.typ = "ASSIGN" then
        let s₂ := consumeToken s₁
        match parseExpression fuel s₂ with
        | .error e => .error e
        | .ok (value, s₃) =>
          .ok (none, { s₃ with vars := setVar s₃.vars varName value })
      else
        match evaluateExpression s₁.vars varName with
        | .error e => .error e
        | .ok value => .ok (some value, s₁)
    else
      match parseExpression fuel s with
      | .error e => .error e
      | .ok (value, s₁) => .ok (some value, s₁)

/-- The statement loop in `main`: a do-while — call `parseStatement`, then
break if the lookahead is `EOF`.  Collects the printed lines. -/
def runLoop (fuel : Nat) (s : ParserState) : Except Err (List Int) :=
  match fuel with
  | 0 => .error .OutOfFuel
  | fuel + 1 =>
    match parseStatement fuel s with
    | .error e => .error e
    | .ok (out, s₁) =>
      if s₁.curToken.typ = "EOF" then .ok out.toList
      else
        match runLoop fuel s₁ with
        | .error e => .error e
        | .ok outs => .ok (out.toList ++ outs)

/-- One whole run: tokenize the input lines, build the parser, drive the
statement loop.  The result is the sequence of printed integers. -/
def run (fuel : Nat) (lines : List String) : Except Err (List Int) :=
  runLoop fuel (NewParser (tokenizeInput lines))

/-!
## Specification-side vocabulary

`BinOp`, `leftFold` and the `flat*` encodings render the spec's phrase
"left-to-right fold of the operators in source order" so it can be compared
with what the parser computes; `drainN` iterates `NextToken`.
-/

/-- The four binary operators of the language. -/
inductive BinOp where
  | plus
  | minus
  | mul
  | div
  deriving DecidableEq, Repr

/-- The token a source-level operator word produces. -/
def BinOp.token : BinOp → Token
  | .plus => ⟨"PLUS", "+"⟩
  | .minus => ⟨"MINUS", "-"⟩
  | .mul => ⟨"MULTIPLY", "*"⟩
  | .div => ⟨"DIVIDE", "/"⟩

/-- The left-to-right fold of the spec (§4.2, §8): combine the operands
strictly in source order, one accumulator, no precedence tiers, each step
in the host's (wrapping 64-bit) integer arithmetic; division by zero
aborts the fold with the interpreter's error. -/
def leftFold : Int → List (BinOp × Int) → Except Err Int
  | acc, [] => .ok acc
  | acc, p :: tl =>
    match applyOperator p.1.token.typ acc p.2 with
    | .error e => .error e
    | .ok acc₂ => leftFold acc₂ tl

/-- Token encoding of the tail of a flat (parenthesis-free) statement:
alternating operator and number-literal tokens. -/
def flatRest (items : List (BinOp × String)) : List Token :=
  items.flatMap fun p => [p.1.token, ⟨"NUMBER", p.2⟩]

/-- Token encoding of a whole flat statement: a leading number literal,
then alternating operators and number literals. -/
def flatTokens (w₀ : String) (items : List (BinOp × String)) : List Token :=
  ⟨"NUMBER", w₀⟩ :: flatRest items

/-- The parser state on entry to the operator-fold loop while consuming a
flat statement: lookahead holds the next operator (or `EOF` when done). -/
def flatState (env : List (String × Int)) :
    List (BinOp × String) → ParserState
  | [] => ⟨eofToken, [], env⟩
  | (o, w) :: tl => ⟨o.token, ⟨"NUMBER", w⟩ :: flatRest tl, env⟩

/-- Word/value agreement between the token encoding of a flat statement
and its numeric contents: same operators, and each literal word parses to
the corresponding value. -/
abbrev FlatMatch (items : List (BinOp × String)) (vals : List (BinOp × Int)) :
    Prop :=
  List.Forall₂ (fun p q => p.1 = q.1 ∧ goAtoi p.2 = some q.2) items vals

/-- The seven operator/punctuation words of the tokenizer's exact-match
rule (the `case` arms of `getTokenType`). -/
def opWords : List String := ["+", "-", "*", "/", "=", "(", ")"]

/-- `n` successive `NextToken` calls, keeping only the remaining stream. -/
def drainN : Nat → List Token → List Token
  | 0, ts => ts
  | n + 1, ts => drainN n (NextToken ts).2

/-!
## Supporting lemmas
-/

/-- Advancing a stream via `NextToken` keeps exactly its tail. -/
theorem nextToken_snd (ts : List Token) : (NextToken ts).2 = ts.tail := by
  cases ts <;> rfl

/-- `n` `NextToken` calls drop the first `n` tokens. -/
theorem drainN_eq_drop (n : Nat) : ∀ ts : List Token, drainN n ts = ts.drop n := by
  induction n with
  | zero => intro ts; rfl
  | succ n ih =>
    intro ts
    cases ts with
    | nil => simp [drainN, NextToken, ih]
    | cons t tl => simpa [drainN, NextToken] using ih tl

/-!
## C9 — over-consuming the token stream
-/

/-- C9: once at least `length` tokens have been consumed, every further
`NextToken` call returns the `EOF` token and leaves the stream empty —
over-consumption never produces anything but `EndOfInput`. -/
theorem c9_nextToken_after_exhaustion (ts : List Token) (n : Nat)
    (h : ts.length ≤ n) : NextToken (drainN n ts) = (eofToken, []) := by
  rw [drainN_eq_drop, List.drop_eq_nil_of_le h]
  rfl

/-- Witness for C9 on the token stream of `1 + 2`, drained past its end. -/
theorem c9_nextToken_after_exhaustion_witness :
    NextToken (drainN 5 (tokenizeLine "1 + 2")) = (eofToken, []) :=
  c9_nextToken_after_exhaustion (tokenizeLine "1 + 2") 5 (by decide)

/-!
## C10 — physical line boundaries are invisible to the parser
-/

/-- C10: tokenizing a concatenation of line blocks concatenates their
token streams with no separator; concretely, `2 +` followed by `3`
tokenizes exactly like the single line `2 + 3`, and the run folds the two
lines into one statement printing the single line `5`. -/
theorem c10_line_boundaries_invisible :
    (∀ ls₁ ls₂ : List String,
        tokenizeInput (ls₁ ++ ls₂) = tokenizeInput ls₁ ++ tokenizeInput ls₂) ∧
    tokenizeInput ["2 +", "3"] = tokenizeInput ["2 + 3"] ∧
    run 10 ["2 +", "3"] = .ok [5] := by
  refine ⟨fun ls₁ ls₂ => ?_, rfl, rfl⟩
  simp [tokenizeInput]

/-!
## C4 — the statement loop is a do-while, so empty input errors
-/

/-- C4 (counterexample): an input of only empty lines yields no tokens,
yet the run does not terminate normally — the first (unconditional)
`parseStatement` call sees `EOF` and fails with an unexpected-token
error. -/
theorem c4_empty_input_counterexample :
    run 10 ["", "   "] = .error .UnexpectedToken := rfl

/-- C4 (amended): the `main` loop calls `parseStatement` first and checks
for `EndOfInput` only afterwards; for every input that yields no tokens,
the run fails with an unexpected-token error instead of terminating
normally. -/
theorem c4_no_tokens_errors (fuel : Nat) (lines : List String)
    (ht : tokenizeInput lines = []) (hf : 4 ≤ fuel) :
    run fuel lines = .error .UnexpectedToken := by
  obtain ⟨f, rfl⟩ : ∃ f, fuel = f + 4 := ⟨fuel - 4, by omega⟩
  simp [run, ht, NewParser, consumeToken, NextToken, runLoop, parseStatement,
    parseExpression, parseTerm, eofToken]

/-- Witness for C4 (amended) on the empty source. -/
theorem c4_no_tokens_errors_witness : run 4 [] = .error .UnexpectedToken :=
  c4_no_tokens_errors 4 [] rfl (by omega)

/-!
## C7 — the operator-fold loop never consumes a closing parenthesis
-/

/-- C7: if the lookahead on entry to the fold loop is `RPAREN`, the
while-condition fails and the loop exits with the state untouched (the
`RPAREN` stays in the lookahead); and after folding one operator, if the
lookahead has become `RPAREN`, the loop returns the folded accumulator
immediately with that `RPAREN` still in the lookahead — the early return
is reachable only through the operator branch. -/
theorem c7_rparen_left_unconsumed :
    (∀ (fuel : Nat) (left : Int) (s : ParserState),
        s.curToken.typ = "RPAREN" →
        parseExprLoop (fuel + 1) left s = .ok (left, s)) ∧
    (∀ (fuel : Nat) (left right newLeft : Int) (s s₂ : ParserState),
        isOpToken s.curToken = true →
        parseTerm fuel (consumeToken s) = .ok (right, s₂) →
        applyOperator s.curToken.typ left right = .ok newLeft →
        s₂.curToken.typ = "RPAREN" →
        parseExprLoop (fuel + 1) left s = .ok (newLeft, s₂)) := by
  constructor
  · intro fuel left s h
    simp [parseExprLoop, isOpToken, h]
  · intro fuel left right newLeft s s₂ hop hterm happ hrp
    simp [parseExprLoop, hop, hterm, happ, hrp]

/-- Witness for C7: a lone `RPAREN` lookahead exits the loop untouched,
and `+ 3` with a following `RPAREN` folds once and stops on the
unconsumed `RPAREN`. -/
theorem c7_rparen_left_unconsumed_witness :
    parseExprLoop 3 7 ⟨⟨"RPAREN", ")"⟩, [], []⟩ =
      .ok (7, ⟨⟨"RPAREN", ")"⟩, [], []⟩) ∧
    parseExprLoop 3 2 ⟨⟨"PLUS", "+"⟩, [⟨"NUMBER", "3"⟩, ⟨"RPAREN", ")"⟩], []⟩ =
      .ok (5, ⟨⟨"RPAREN", ")"⟩, [], []⟩) := by
  constructor
  · exact c7_rparen_left_unconsumed.1 2 7 _ rfl
  · exact c7_rparen_left_unconsumed.2 2 2 3 5 _ _ rfl rfl rfl rfl

/-!
## C6 — reading an unbound identifier
-/

/-- C6: a term-position identifier with no binding fails with
`UndefinedVariable` naming that identifier; the bare-identifier statement
path (`evaluateExpression`) fails the same way; end to end, the program
`x` (never assigned) and the expression `1 + y` both raise the error with
the offending name. -/
theorem c6_undefined_variable :
    (∀ (fuel : Nat) (s : ParserState),
        s.curToken.typ = "IDENT" →
        lookupVar s.vars s.curToken.value = none →
        parseTerm (fuel + 1) s = .error (.UndefinedVariable s.curToken.value)) ∧
    (∀ (vars : List (String × Int)) (x : String),
        lookupVar vars x = none →
        evaluateExpression vars x = .error (.UndefinedVariable x)) ∧
    run 10 ["x"] = .error (.UndefinedVariable "x") ∧
    run 10 ["1 + y"] = .error (.UndefinedVariable "y") := by
  refine ⟨?_, ?_, rfl, rfl⟩
  · intro fuel s hid hlk
    have hvars : (consumeToken s).vars = s.vars := rfl
    simp [parseTerm, hid, hvars, hlk]
  · intro vars x hlk
    simp [evaluateExpression, hlk]

/-- Witness for C6: looking up `y` in an environment binding only `x`
fails with `UndefinedVariable "y"`, in a term and in the bare-identifier
path. -/
theorem c6_undefined_variable_witness :
    parseTerm 3 ⟨⟨"IDENT", "y"⟩, [], [("x", 5)]⟩ =
      .error (.UndefinedVariable "y") ∧
    evaluateExpression [("x", 5)] "y" = .error (.UndefinedVariable "y") := by
  constructor
  · exact c6_undefined_variable.1 2 _ rfl (by decide)
  · exact c6_undefined_variable.2.1 [("x", 5)] "y" (by decide)

/-!
## C5 — division: zero right operand errors, otherwise truncation
-/

/-- C5: inside the fold loop, a `DIVIDE` operator whose right operand
evaluates to zero fails with `DivisionByZero`; a nonzero right operand
folds `Int.tdiv` (truncation toward zero, Go's convention), wrapped into
the 64-bit range, into the accumulator.  End to end: `5 / 0` and `5 / z`
with `z = 0` raise the error, `7 / 2` prints `3`, `-7 / 2` prints `-3`,
and Go's one overflowing quotient `-9223372036854775808 / -1` wraps back
to `-9223372036854775808`. -/
theorem c5_division :
    (∀ (fuel : Nat) (left right : Int) (s s₂ : ParserState),
        s.curToken.typ = "DIVIDE" →
        parseTerm fuel (consumeToken s) = .ok (right, s₂) →
        (right = 0 →
          parseExprLoop (fuel + 1) left s = .error .DivisionByZero) ∧
        (right ≠ 0 →
          parseExprLoop (fuel + 1) left s =
            if s₂.curToken.typ = "RPAREN" then
              .ok (wrap64 (Int.tdiv left right), s₂)
            else parseExprLoop fuel (wrap64 (Int.tdiv left right)) s₂)) ∧
    run 10 ["5 / 0"] = .error .DivisionByZero ∧
    run 20 ["z = 0", "5 / z"] = .error .DivisionByZero ∧
    run 10 ["7 / 2"] = .ok [3] ∧
    run 10 ["-7 / 2"] = .ok [-3] ∧
    run 10 ["-9223372036854775808 / -1"] = .ok [-9223372036854775808] := by
  refine ⟨?_, rfl, rfl, rfl, rfl, rfl⟩
  intro fuel left right s s₂ hdiv hterm
  constructor
  · intro hz
    simp [parseExprLoop, isOpToken, hdiv, hterm, applyOperator, hz]
  · intro hnz
    simp [parseExprLoop, isOpToken, hdiv, hterm, applyOperator, hnz]

/-- Witness for C5: dividing by a zero-valued term errors, and `7 / 2`
truncates to `3`. -/
theorem c5_division_witness :
    parseExprLoop 3 5 ⟨⟨"DIVIDE", "/"⟩, [⟨"NUMBER", "0"⟩], []⟩ =
      .error .DivisionByZero ∧
    parseExprLoop 3 7 ⟨⟨"DIVIDE", "/"⟩, [⟨"NUMBER", "2"⟩], []⟩ =
      .ok (3, ⟨eofToken, [], []⟩) := by
  constructor
  · exact (c5_division.1 2 5 0 ⟨⟨"DIVIDE", "/"⟩, [⟨"NUMBER", "0"⟩], []⟩
      ⟨eofToken, [], []⟩ rfl rfl).1 rfl
  · have h := (c5_division.1 2 7 2 ⟨⟨"DIVIDE", "/"⟩, [⟨"NUMBER", "2"⟩], []⟩
      ⟨eofToken, [], []⟩ rfl rfl).2 (by decide)
    simpa using h

/-!
## C2 — parenthesised terms

The tokenizer splits on whitespace only, so in `(2 + 3) * 4` the words
`(2` and `3)` are classified `UNKNOWN` and parsing fails; the `LPAREN`
machinery of `parseTerm` is only reachable when the parentheses are
whitespace-separated words.
-/

/-- C2 (counterexample): the input `(2 + 3) * 4` does not print 20 — it
fails with an unexpected-token error, because `(2` and `3)` tokenize as
`UNKNOWN` words. -/
theorem c2_unspaced_parens_counterexample :
    run 20 ["(2 + 3) * 4"] = .error .UnexpectedToken ∧
    getTokenType "(2" = "UNKNOWN" ∧ getTokenType "3)" = "UNKNOWN" :=
  ⟨rfl, rfl, rfl⟩

/-- C2 (amended): on an `LPAREN` lookahead, `parseTerm` consumes it,
recursively evaluates the full inner expression first, then requires the
lookahead to be `RPAREN` — consuming it and returning the inner value —
and fails with the expected-closing-paren error otherwise; inner errors
propagate unchanged.  In particular the whitespace-separated
`( 2 + 3 ) * 4` prints 20, and `2 + ( 3 * 4 )` prints 14 (the group is
evaluated first, overriding the flat left-to-right fold). -/
theorem c2_paren_term :
    (∀ (fuel : Nat) (s s₂ : ParserState) (v : Int),
        s.curToken.typ = "LPAREN" →
        parseExpression fuel (consumeToken s) = .ok (v, s₂) →
        parseTerm (fuel + 1) s =
          if s₂.curToken.typ = "RPAREN" then .ok (v, consumeToken s₂)
          else .error .ExpectedRParen) ∧
    (∀ (fuel : Nat) (s : ParserState) (e : Err),
        s.curToken.typ = "LPAREN" →
        parseExpression fuel (consumeToken s) = .error e →
        parseTerm (fuel + 1) s = .error e) ∧
    run 20 ["( 2 + 3 ) * 4"] = .ok [20] ∧
    run 20 ["2 + ( 3 * 4 )"] = .ok [14] := by
  refine ⟨?_, ?_, rfl, rfl⟩
  · intro fuel s s₂ v hlp hinner
    by_cases hrp : s₂.curToken.typ = "RPAREN" <;>
      simp [parseTerm, hlp, hinner, hrp]
  · intro fuel s e hlp hinner
    simp [parseTerm, hlp, hinner]

/-- Witness for C2 (amended): a spaced `( 5 )` term returns the inner
value past the consumed `RPAREN`, and a missing closing parenthesis
yields the expected-closing-paren error. -/
theorem c2_paren_term_witness :
    parseTerm 4 ⟨⟨"LPAREN", "("⟩, [⟨"NUMBER", "5"⟩, ⟨"RPAREN", ")"⟩], []⟩ =
      .ok (5, ⟨eofToken, [], []⟩) ∧
    parseTerm 4 ⟨⟨"LPAREN", "("⟩, [⟨"NUMBER", "5"⟩], []⟩ =
      .error .ExpectedRParen := by
  constructor
  · have h := c2_paren_term.1 3
      ⟨⟨"LPAREN", "("⟩, [⟨"NUMBER", "5"⟩, ⟨"RPAREN", ")"⟩], []⟩
      ⟨⟨"RPAREN", ")"⟩, [], []⟩ 5 rfl rfl
    simpa using h
  · have h := c2_paren_term.1 3
      ⟨⟨"LPAREN", "("⟩, [⟨"NUMBER", "5"⟩], []⟩
      ⟨eofToken, [], []⟩ 5 rfl rfl
    simpa using h

/-!
## C3 — assignment, lookup, reassignment
-/

/-- C3: `x = <expr>` binds the evaluated result to `x` and prints
nothing; a lookup of a freshly written binding returns exactly the stored
value; a rewrite of the same name wins over the earlier binding; and the
four-statement program `x = 5`, `x`, `x = 7`, `x` prints exactly `5`
then `7`. -/
theorem c3_assignment :
    (∀ (fuel : Nat) (s s₃ : ParserState) (v : Int),
        s.curToken.typ = "IDENT" →
        (consumeToken s).curToken.typ = "ASSIGN" →
        parseExpression fuel (consumeToken (consumeToken s)) = .ok (v, s₃) →
        parseStatement (fuel + 1) s =
          .ok (none, { s₃ with vars := setVar s₃.vars s.curToken.value v })) ∧
    (∀ (vars : List (String × Int)) (x : String) (v : Int),
        lookupVar (setVar vars x v) x = some v) ∧
    (∀ (vars : List (String × Int)) (x : String) (v₁ v₂ : Int),
        lookupVar (setVar (setVar vars x v₁) x v₂) x = some v₂) ∧
    run 30 ["x = 5", "x", "x = 7", "x"] = .ok [5, 7] := by
  refine ⟨?_, ?_, ?_, rfl⟩
  · intro fuel s s₃ v hid hassign hexpr
    simp [parseStatement, hid, hassign, hexpr]
  · intro vars x v
    simp [lookupVar, setVar]
  · intro vars x v₁ v₂
    simp [lookupVar, setVar]

/-- Witness for C3: the statement `a = 2 + 3` binds `a` to 5 with no
output, and the fresh binding reads back as 5 (twice-written `a` reads
back the later value). -/
theorem c3_assignment_witness :
    parseStatement 5 ⟨⟨"IDENT", "a"⟩,
        [⟨"ASSIGN", "="⟩, ⟨"NUMBER", "2"⟩, ⟨"PLUS", "+"⟩, ⟨"NUMBER", "3"⟩],
        []⟩ =
      .ok (none, ⟨eofToken, [], [("a", 5)]⟩) ∧
    lookupVar (setVar [] "a" 5) "a" = some 5 ∧
    lookupVar (setVar (setVar [] "a" 5) "a" 7) "a" = some 7 := by
  refine ⟨?_, ?_, ?_⟩
  · have h := c3_assignment.1 4
      ⟨⟨"IDENT", "a"⟩,
        [⟨"ASSIGN", "="⟩, ⟨"NUMBER", "2"⟩, ⟨"PLUS", "+"⟩, ⟨"NUMBER", "3"⟩], []⟩
      ⟨eofToken, [], []⟩ 5 rfl rfl rfl
    simpa using h
  · exact c3_assignment.2.1 [] "a" 5
  · exact c3_assignment.2.2.1 [] "a" 5 7

/-!
## C8 — word classification priority and deferred rejection
-/

/-- C8 (counterexample): the word `←1` starts with `←` (U+2190), which
is not an alphabetic letter, and the word is no operator match and no
integer, so the claim's priority chain demands `UNKNOWN`; yet the
program classifies it `IDENT`, because `tokenText[0]` is the first
UTF-8 byte `0xE2` of `←` and `rune(0xE2)` is the Latin-1 letter `â`. -/
theorem c8_first_byte_counterexample :
    getTokenType "←1" = "IDENT" ∧ goAtoi "←1" = none ∧ "←1" ∉ opWords := by
  exact ⟨rfl, rfl, by decide⟩

/-- C8 (amended): each of the seven punctuation words maps to its
operator token; any word `strconv.Atoi` accepts is `NUMBER`; otherwise a
word whose first UTF-8 byte, read as a code point (Go's
`rune(tokenText[0])`), is a letter — for ASCII words, exactly: whose
first character is an ASCII letter — is one `IDENT` carrying the whole
word; otherwise it is `UNKNOWN`.  `UNKNOWN` words are still tokenized
(e.g. `x1 @@` yields an `IDENT` for the whole word `x1` and an `UNKNOWN`
for `@@`) and are rejected only when `parseTerm` meets them, as an
unexpected-token error. -/
theorem c8_token_classification :
    (getTokenType "+" = "PLUS" ∧ getTokenType "-" = "MINUS" ∧
     getTokenType "*" = "MULTIPLY" ∧ getTokenType "/" = "DIVIDE" ∧
     getTokenType "=" = "ASSIGN" ∧ getTokenType "(" = "LPAREN" ∧
     getTokenType ")" = "RPAREN") ∧
    (∀ (w : String) (n : Int), goAtoi w = some n → getTokenType w = "NUMBER") ∧
    (∀ (w : String) (c : Char) (cs : List Char),
        w.toList = c :: cs → w ∉ opWords → goAtoi w = none →
        goIsLetterByte (utf8FirstByte c) = true →
        getTokenType w = "IDENT") ∧
    (∀ (w : String) (c : Char) (cs : List Char),
        w.toList = c :: cs → w ∉ opWords → goAtoi w = none →
        goIsLetterByte (utf8FirstByte c) = false →
        getTokenType w = "UNKNOWN") ∧
    tokenizeLine "x1 @@" = [⟨"IDENT", "x1"⟩, ⟨"UNKNOWN", "@@"⟩] ∧
    (∀ (fuel : Nat) (s : ParserState), s.curToken.typ = "UNKNOWN" →
        parseTerm (fuel + 1) s = .error .UnexpectedToken) := by
  refine ⟨⟨rfl, rfl, rfl, rfl, rfl, rfl, rfl⟩, ?_, ?_, ?_, rfl, ?_⟩
  · intro w n h
    have h₁ : w ≠ "+" := by
      rintro rfl; rw [show goAtoi "+" = none from rfl] at h; exact Option.noConfusion h
    have h₂ : w ≠ "-" := by
      rintro rfl; rw [show goAtoi "-" = none from rfl] at h; exact Option.noConfusion h
    have h₃ : w ≠ "*" := by
      rintro rfl; rw [show goAtoi "*" = none from rfl] at h; exact Option.noConfusion h
    have h₄ : w ≠ "/" := by
      rintro rfl; rw [show goAtoi "/" = none from rfl] at h; exact Option.noConfusion h
    have h₅ : w ≠ "=" := by
      rintro rfl; rw [show goAtoi "=" = none from rfl] at h; exact Option.noConfusion h
    have h₆ : w ≠ "(" := by
      rintro rfl; rw [show goAtoi "(" = none from rfl] at h; exact Option.noConfusion h
    have h₇ : w ≠ ")" := by
      rintro rfl; rw [show goAtoi ")" = none from rfl] at h; exact Option.noConfusion h
    simp [getTokenType, h₁, h₂, h₃, h₄, h₅, h₆, h₇, h]
  · intro w c cs hcs hop hatoi halpha
    simp only [opWords, List.mem_cons, List.not_mem_nil, or_false, not_or] at hop
    obtain ⟨h₁, h₂, h₃, h₄, h₅, h₆, h₇⟩ := hop
    have hdata : w.data = c :: cs := hcs
    simp [getTokenType, h₁, h₂, h₃, h₄, h₅, h₆, h₇, hatoi, hdata, halpha]
  · intro w c cs hcs hop hatoi halpha
    simp only [opWords, List.mem_cons, List.not_mem_nil, or_false, not_or] at hop
    obtain ⟨h₁, h₂, h₃, h₄, h₅, h₆, h₇⟩ := hop
    have hdata : w.data = c :: cs := hcs
    simp [getTokenType, h₁, h₂, h₃, h₄, h₅, h₆, h₇, hatoi, hdata, halpha]
  · intro fuel s h
    simp [parseTerm, h]

/-- Witness for C8 (amended): `42` is a `NUMBER`, `abc9` one `IDENT`,
`é1` an `IDENT` through its lead byte `0xC3` (the letter `Ã`), `@@` an
`UNKNOWN`, and an `UNKNOWN` lookahead fails `parseTerm` with the
unexpected-token error. -/
theorem c8_token_classification_witness :
    getTokenType "42" = "NUMBER" ∧ getTokenType "abc9" = "IDENT" ∧
    getTokenType "é1" = "IDENT" ∧ getTokenType "@@" = "UNKNOWN" ∧
    parseTerm 4 ⟨⟨"UNKNOWN", "@@"⟩, [], []⟩ = .error .UnexpectedToken := by
  refine ⟨?_, ?_, ?_, ?_, ?_⟩
  · exact c8_token_classification.2.1 "42" 42 rfl
  · exact c8_token_classification.2.2.1 "abc9" 'a' ['b', 'c', '9'] rfl
      (by decide) rfl (by decide)
  · exact c8_token_classification.2.2.1 "é1" 'é' ['1'] rfl
      (by decide) rfl (by decide)
  · exact c8_token_classification.2.2.2.1 "@@" '@' ['@'] rfl
      (by decide) rfl (by decide)
  · exact c8_token_classification.2.2.2.2.2 3 ⟨⟨"UNKNOWN", "@@"⟩, [], []⟩ rfl

/-!
## C1 — flat statements evaluate as a left-to-right fold
-/

/-- Consuming a token whose remaining stream encodes the tail of a flat
statement lands exactly in the canonical loop-entry state. -/
theorem consumeToken_flatRest (t : Token) (env : List (String × Int))
    (items : List (BinOp × String)) :
    consumeToken ⟨t, flatRest items, env⟩ = flatState env items := by
  cases items with
  | nil => rfl
  | cons p tl => cases p; rfl

/-- Every `BinOp` token satisfies the fold loop's while-condition. -/
theorem isOpToken_binop (o : BinOp) : isOpToken o.token = true := by
  cases o <;> rfl

/-- While consuming a flat statement the lookahead is never `RPAREN`
(it is an operator token or `EOF`), so the early return never fires. -/
theorem flatState_cur_ne_rparen (env : List (String × Int))
    (items : List (BinOp × String)) :
    ¬ (flatState env items).curToken.typ = "RPAREN" := by
  cases items with
  | nil => simp [flatState, eofToken]
  | cons p tl =>
    obtain ⟨o, w⟩ := p
    cases o <;> simp [flatState, BinOp.token]

/-- The fold loop on the token encoding of a flat statement computes
exactly the spec's left-to-right fold of the remaining operators, ending
with `EOF` in the lookahead and an unchanged environment. -/
theorem parseExprLoop_flat {items : List (BinOp × String)}
    {vals : List (BinOp × Int)} (hm : FlatMatch items vals) :
    ∀ (fuel : Nat) (acc : Int) (env : List (String × Int)),
      2 * items.length + 1 ≤ fuel →
      parseExprLoop fuel acc (flatState env items) =
        (leftFold acc vals).map fun v => (v, (⟨eofToken, [], env⟩ : ParserState)) := by
  induction hm with
  | nil =>
    intro fuel acc env hf
    obtain ⟨f, rfl⟩ : ∃ f, fuel = f + 1 := ⟨fuel - 1, by omega⟩
    simp [parseExprLoop, flatState, isOpToken, eofToken, leftFold, Except.map]
  | @cons p q tl vtl hpq htl ih =>
    intro fuel acc env hf
    obtain ⟨o, w⟩ := p
    obtain ⟨o₂, n⟩ := q
    obtain ⟨ho, hw⟩ := hpq
    subst ho
    have hw' : goAtoi w = some n := hw
    simp only [List.length_cons] at hf
    obtain ⟨g, rfl⟩ : ∃ g, fuel = g + 2 := ⟨fuel - 2, by omega⟩
    have hg : 2 * tl.length + 1 ≤ g + 1 := by omega
    have hstep : consumeToken ⟨(⟨"NUMBER", w⟩ : Token), flatRest tl, env⟩ =
        flatState env tl := consumeToken_flatRest _ env tl
    have hflat : flatState env ((o, w) :: tl) =
        ⟨o.token, (⟨"NUMBER", w⟩ : Token) :: flatRest tl, env⟩ := rfl
    have hstep₀ : consumeToken ⟨o.token, (⟨"NUMBER", w⟩ : Token) :: flatRest tl, env⟩ =
        ⟨(⟨"NUMBER", w⟩ : Token), flatRest tl, env⟩ := rfl
    have hrp := flatState_cur_ne_rparen env tl
    rcases happ : applyOperator o.token.typ acc n with e | acc₂
    · simp [parseExprLoop, hflat, isOpToken_binop, hstep₀, parseTerm, hw',
        hstep, happ, leftFold, Except.map]
    · simp only [leftFold, happ]
      rw [← ih (g + 1) acc₂ env hg]
      simp [parseExprLoop, hflat, isOpToken_binop, hstep₀, parseTerm, hw',
        hstep, happ, hrp]

/-- `parseExpression` on the full token encoding of a flat statement is
exactly the spec's left-to-right fold. -/
theorem parseExpression_flat {items : List (BinOp × String)}
    {vals : List (BinOp × Int)} (hm : FlatMatch items vals)
    (w₀ : String) (n₀ : Int) (h₀ : goAtoi w₀ = some n₀)
    (env : List (String × Int)) (fuel : Nat)
    (hf : 2 * items.length + 3 ≤ fuel) :
    parseExpression fuel ⟨⟨"NUMBER", w₀⟩, flatRest items, env⟩ =
      (leftFold n₀ vals).map fun v => (v, (⟨eofToken, [], env⟩ : ParserState)) := by
  obtain ⟨f, rfl⟩ : ∃ f, fuel = f + 2 := ⟨fuel - 2, by omega⟩
  have hstep : consumeToken ⟨(⟨"NUMBER", w₀⟩ : Token), flatRest items, env⟩ =
      flatState env items := consumeToken_flatRest _ env items
  have hloop := parseExprLoop_flat hm (f + 1) n₀ env (by omega)
  simp [parseExpression, parseTerm, h₀, hstep, hloop]

/-- C1: for every input whose token stream is a flat statement — integer
literals joined by `+ - * /` with no parentheses — the run prints the
single line given by the left-to-right fold of the operators in source
order in the host's wrapping 64-bit arithmetic, with no precedence
distinction (or fails with `DivisionByZero` exactly when that fold
does). -/
theorem c1_flat_left_fold (lines : List String) (w₀ : String) (n₀ : Int)
    (items : List (BinOp × String)) (vals : List (BinOp × Int)) (fuel : Nat)
    (ht : tokenizeInput lines = flatTokens w₀ items)
    (h₀ : goAtoi w₀ = some n₀) (hm : FlatMatch items vals)
    (hf : 2 * items.length + 5 ≤ fuel) :
    run fuel lines = (leftFold n₀ vals).map fun v => [v] := by
  obtain ⟨e, rfl⟩ : ∃ e, fuel = e + 2 := ⟨fuel - 2, by omega⟩
  have hnp : NewParser (flatTokens w₀ items) =
      ⟨⟨"NUMBER", w₀⟩, flatRest items, []⟩ := rfl
  have hexpr := parseExpression_flat hm w₀ n₀ h₀ [] e (by omega)
  rcases hfold : leftFold n₀ vals with err | v
  · rw [hfold] at hexpr
    simp only [Except.map] at hexpr
    simp [run, ht, hnp, runLoop, parseStatement, hexpr, Except.map]
  · rw [hfold] at hexpr
    simp only [Except.map] at hexpr
    simp [run, ht, hnp, runLoop, parseStatement, hexpr, eofToken, Except.map]

/-- Witness for C1: `2 + 3 * 4` prints 20 — the flat fold `(2+3)*4` —
and not 14; and at the wrap point, `9223372036854775807 + 1` prints
`-9223372036854775808` exactly as Go's `int` overflow does. -/
theorem c1_flat_left_fold_witness :
    run 11 ["2 + 3 * 4"] = .ok [20] ∧
    run 11 ["9223372036854775807 + 1"] = .ok [-9223372036854775808] := by
  constructor
  · have hm : FlatMatch [(BinOp.plus, "3"), (BinOp.mul, "4")]
        [(BinOp.plus, 3), (BinOp.mul, 4)] :=
      List.Forall₂.cons ⟨rfl, rfl⟩ (List.Forall₂.cons ⟨rfl, rfl⟩ List.Forall₂.nil)
    have h := c1_flat_left_fold ["2 + 3 * 4"] "2" 2
        [(BinOp.plus, "3"), (BinOp.mul, "4")] [(BinOp.plus, 3), (BinOp.mul, 4)]
        11 rfl rfl hm (by decide)
    exact h.trans rfl
  · have hm : FlatMatch [(BinOp.plus, "1")] [(BinOp.plus, 1)] :=
      List.Forall₂.cons ⟨rfl, rfl⟩ List.Forall₂.nil
    have h := c1_flat_left_fold ["9223372036854775807 + 1"]
        "9223372036854775807" 9223372036854775807
        [(BinOp.plus, "1")] [(BinOp.plus, 1)] 11 rfl rfl hm (by decide)
    exact h.trans rfl
